import Mathlib

/-!
Verification of the ingestion core of `binance-futures-availability`.

Shallow embedding of:
* `src/binance_futures_availability/database/schema.py` and
  `database/availability_db.py` (the DuckDB-backed store),
* `src/binance_futures_availability/probing/s3_vision.py` (single-symbol probe),
* `src/binance_futures_availability/probing/batch_prober.py` (batch fan-out),
* `src/binance_futures_availability/scheduler/backfill.py` (checkpointed backfill).

Machine-level details that no claim depends on are carried opaquely:
SQL `DOUBLE` columns and timestamps are opaque integers (the embedded
operations never compute on them, they only copy them), and calendar dates
in the scheduler are ordinal day numbers (`Nat`), so that `+ 1 day` is `+ 1`.
-/

namespace BFA

/-! ## Store: schema.py / availability_db.py -/

/--
One row of the `daily_availability` table (`schema.py`, `create_schema`,
lines 68-95): primary key `(date, symbol)`, eight NOT NULL-or-nullable base
columns plus nine nullable ADR-0007 volume columns.  `DOUBLE` columns are
carried as opaque integers; timestamps as opaque naturals.
-/
structure Row where
  date : Nat
  symbol : String
  available : Bool
  file_size_bytes : Option Int
  last_modified : Option Nat
  url : String
  status_code : Int
  probe_timestamp : Nat
  quote_volume_usdt : Option Int
  trade_count : Option Int
  volume_base : Option Int
  taker_buy_volume_base : Option Int
  taker_buy_quote_volume_usdt : Option Int
  open_price : Option Int
  high_price : Option Int
  low_price : Option Int
  close_price : Option Int
deriving DecidableEq, Repr

/--
One row of the `daily_symbol_counts` materialized-view table
(`schema.py` lines 121-129): primary key `date`.
-/
structure CountRow where
  date : Nat
  total_symbols : Nat
  available_symbols : Nat
  unavailable_symbols : Nat
  last_updated : Nat
deriving DecidableEq, Repr

/--
A Python record dict as passed to `AvailabilityDatabase.insert_batch`
(`availability_db.py` lines 126-197).  Each field is `Option`-valued:
`none` means the key is absent from the dict (for the six keys read with
`r[...]` an absent key raises `KeyError`; the keys read with `r.get(...)`
silently default to `None`, which `none` also represents).
-/
structure RecordDict where
  date : Option Nat := none
  symbol : Option String := none
  available : Option Bool := none
  file_size_bytes : Option Int := none
  last_modified : Option Nat := none
  url : Option String := none
  status_code : Option Int := none
  probe_timestamp : Option Nat := none
  quote_volume_usdt : Option Int := none
  trade_count : Option Int := none
  volume_base : Option Int := none
  taker_buy_volume_base : Option Int := none
  taker_buy_quote_volume_usdt : Option Int := none
  open_price : Option Int := none
  high_price : Option Int := none
  low_price : Option Int := none
  close_price : Option Int := none
deriving DecidableEq, Repr

/-- The two tables owned by `AvailabilityDatabase`. -/
structure DBState where
  daily_availability : List Row
  daily_symbol_counts : List CountRow
deriving DecidableEq, Repr

/-- The primary key of `daily_availability`: `(date, symbol)`. -/
def rowKey (r : Row) : Nat × String :=
  (r.date, r.symbol)

/--
`INSERT OR REPLACE INTO daily_availability` for one parameter tuple, under
the table's `PRIMARY KEY (date, symbol)`: any existing row with the same
key is replaced, otherwise the row is inserted.
-/
def upsertRow (t : List Row) (r : Row) : List Row :=
  t.filter (fun x => !(rowKey x == rowKey r)) ++ [r]

/--
Construction of one parameter tuple of the `executemany` call in
`insert_batch` (`availability_db.py` lines 168-190).  The six keys read
with `r[...]` raise `KeyError` when absent, in the evaluation order of the
tuple; the remaining keys use `r.get(...)` and default to null.
-/
def buildTuple (r : RecordDict) : Except String Row :=
  match r.date with
  | none => .error "KeyError: date"
  | some d =>
    match r.symbol with
    | none => .error "KeyError: symbol"
    | some s =>
      match r.available with
      | none => .error "KeyError: available"
      | some a =>
        match r.url with
        | none => .error "KeyError: url"
        | some u =>
          match r.status_code with
          | none => .error "KeyError: status_code"
          | some sc =>
            match r.probe_timestamp with
            | none => .error "KeyError: probe_timestamp"
            | some pt =>
              .ok { date := d, symbol := s, available := a,
                    file_size_bytes := r.file_size_bytes,
                    last_modified := r.last_modified,
                    url := u, status_code := sc, probe_timestamp := pt,
                    quote_volume_usdt := r.quote_volume_usdt,
                    trade_count := r.trade_count,
                    volume_base := r.volume_base,
                    taker_buy_volume_base := r.taker_buy_volume_base,
                    taker_buy_quote_volume_usdt := r.taker_buy_quote_volume_usdt,
                    open_price := r.open_price,
                    high_price := r.high_price,
                    low_price := r.low_price,
                    close_price := r.close_price }

/--
The full parameter list of the `executemany` call: a Python list
comprehension, evaluated left to right and in full before any database
statement executes; the first missing required key aborts the whole batch.
-/
def buildTuples : List RecordDict → Except String (List Row)
  | [] => .ok []
  | r :: rs =>
    match buildTuple r with
    | .error e => .error e
    | .ok row =>
      match buildTuples rs with
      | .error e => .error e
      | .ok rows => .ok (row :: rows)

/-- Whether all six `r[...]`-accessed keys of `insert_batch` are present. -/
def requiredKeysPresent (r : RecordDict) : Bool :=
  r.date.isSome && r.symbol.isSome && r.available.isSome &&
    r.url.isSome && r.status_code.isSome && r.probe_timestamp.isSome

/--
The `SELECT date, COUNT(*), SUM(available), SUM(NOT available),
CURRENT_TIMESTAMP ... GROUP BY date` aggregate row for one date
(`availability_db.py` lines 232-242).
-/
def mkCount (t : List Row) (d : Nat) (now : Nat) : CountRow :=
  { date := d,
    total_symbols := (t.filter (fun r => r.date == d)).length,
    available_symbols := (t.filter (fun r => r.date == d && r.available)).length,
    unavailable_symbols := (t.filter (fun r => r.date == d && !r.available)).length,
    last_updated := now }

/--
`INSERT OR REPLACE INTO daily_symbol_counts` for one aggregate row, under
the table's `PRIMARY KEY (date)`.
-/
def upsertCount (cs : List CountRow) (c : CountRow) : List CountRow :=
  cs.filter (fun x => !(x.date == c.date)) ++ [c]

/--
`AvailabilityDatabase.refresh_materialized_views`
(`availability_db.py` lines 219-244): upserts one freshly recomputed
aggregate row into `daily_symbol_counts` for every date present in
`daily_availability`.
-/
def refreshCounts (t : List Row) (cs : List CountRow) (now : Nat) : List CountRow :=
  ((t.map (fun r => r.date)).dedup).foldl (fun acc d => upsertCount acc (mkCount t d now)) cs

/-- `refresh_materialized_views` on the whole database state. -/
def refresh_materialized_views (db : DBState) (now : Nat) : DBState :=
  { db with daily_symbol_counts := refreshCounts db.daily_availability db.daily_symbol_counts now }

/--
`AvailabilityDatabase.insert_batch` (`availability_db.py` lines 126-197).
Returns the resulting database state together with the message of the
raised `RuntimeError`, if any; when an error is raised the state is the
unmodified input state, because the parameter tuples are all constructed
before `executemany` runs.  `skip` is the constructor flag
`skip_materialized_refresh`; `now` is the wall clock used for
`CURRENT_TIMESTAMP` in the refresh.
-/
def insert_batch (db : DBState) (skip : Bool) (now : Nat)
    (records : List RecordDict) : DBState × Option String :=
  if records.isEmpty then (db, none)
  else
    match buildTuples records with
    | .error e =>
      (db, some ("Failed to insert batch of " ++ toString records.length ++ " records: " ++ e))
    | .ok tuples =>
      let db1 : DBState := { db with daily_availability := tuples.foldl upsertRow db.daily_availability }
      (if skip then db1 else refresh_materialized_views db1 now, none)

/-- All rows of `daily_availability` whose primary key is `k`. -/
def rowsFor (t : List Row) (k : Nat × String) : List Row :=
  t.filter (fun x => rowKey x == k)

/-- The last parameter tuple in a batch whose primary key is `k` (the one
whose `INSERT OR REPLACE` wins under `executemany`'s in-order execution). -/
def lastTupleFor : List Row → Nat × String → Option Row
  | [], _ => none
  | r :: rs, k =>
    match lastTupleFor rs k with
    | some r' => some r'
    | none => if rowKey r == k then some r else none

/-- The authoritative `daily_symbol_counts` row for a date (the last row
with that date; upserts append the fresh row at the end). -/
def countFor : List CountRow → Nat → Option CountRow
  | [], _ => none
  | c :: cs, d =>
    match countFor cs d with
    | some c' => some c'
    | none => if c.date == d then some c else none

/-! ## Existence prober: s3_vision.py -/

/-- A calendar date as year/month/day, as formatted by
`date.strftime("%Y-%m-%d")`. -/
structure YMD where
  year : Nat
  month : Nat
  day : Nat
deriving DecidableEq, Repr

/-- Decimal digit character for `n < 10`. -/
def digitChar (n : Nat) : Char :=
  Char.ofNat (48 + n)

/-- Decimal digits of a natural number, most significant first (the digits
CPython prints for a non-negative integer). -/
def natToDigits (n : Nat) : List Char :=
  if n < 10 then [digitChar n]
  else natToDigits (n / 10) ++ [digitChar (n % 10)]
termination_by n
decreasing_by
  exact Nat.div_lt_self (by omega) (by omega)

/-- Left-pad a digit string with zeros to width `k` (`strftime` zero-pads
`%m` and `%d` to two digits). -/
def zfill (k : Nat) (l : List Char) : List Char :=
  List.replicate (k - l.length) '0' ++ l

/-- `date.strftime("%Y-%m-%d")` (`s3_vision.py` line 67). -/
def formatDate (d : YMD) : String :=
  ⟨natToDigits d.year ++ ['-'] ++ zfill 2 (natToDigits d.month) ++ ['-'] ++
    zfill 2 (natToDigits d.day)⟩

/-- The bytes `urllib.parse.quote` never escapes (its `always_safe` set):
ASCII letters, digits, and `_ . - ~`. -/
def alwaysSafeByte (b : Nat) : Bool :=
  (65 ≤ b && b ≤ 90) || (97 ≤ b && b ≤ 122) || (48 ≤ b && b ≤ 57) ||
    b == 95 || b == 46 || b == 45 || b == 126

/-- Uppercase hexadecimal digit for `n < 16` (the case `quote` emits). -/
def hexDigitChar (n : Nat) : Char :=
  if n < 10 then Char.ofNat (48 + n) else Char.ofNat (55 + n)

/-- Percent-encoding of one byte as done by `urllib.parse.quote` with
`safe=''`: always-safe bytes pass through, every other byte becomes `%XX`. -/
def encodeByte (b : Nat) : List Char :=
  if alwaysSafeByte b then [Char.ofNat b] else ['%', hexDigitChar (b / 16), hexDigitChar (b % 16)]

/-- UTF-8 encoding of one code point (Python `str.encode("utf-8")`,
applied by `quote` before escaping). -/
def utf8EncodeChar (c : Char) : List Nat :=
  let n := c.toNat
  if n < 128 then [n]
  else if n < 2048 then [192 + n / 64, 128 + n % 64]
  else if n < 65536 then [224 + n / 4096, 128 + (n / 64) % 64, 128 + n % 64]
  else [240 + n / 262144, 128 + (n / 4096) % 64, 128 + (n / 64) % 64, 128 + n % 64]

/-- UTF-8 bytes of a string. -/
def utf8Bytes (s : String) : List Nat :=
  s.data.flatMap utf8EncodeChar

/-- `urllib.parse.quote(s, safe='')` (`s3_vision.py` line 70): UTF-8
encode, then percent-encode every byte outside the always-safe set. -/
def pyQuote (s : String) : String :=
  ⟨(utf8Bytes s).flatMap encodeByte⟩

/-- Value of a hexadecimal digit character (uppercase letters only, as
emitted by `quote`). -/
def hexVal (c : Char) : Option Nat :=
  if 48 ≤ c.toNat && c.toNat ≤ 57 then some (c.toNat - 48)
  else if 65 ≤ c.toNat && c.toNat ≤ 70 then some (c.toNat - 55)
  else none

/-- Percent-decoding of a character stream back to bytes (the inverse
direction of the spec's "percent-encoding round trip"). -/
def percentDecode : List Char → Option (List Nat)
  | [] => some []
  | c :: rest =>
    if c = '%' then
      match rest with
      | h1 :: h2 :: rest2 =>
        match hexVal h1, hexVal h2, percentDecode rest2 with
        | some a, some b, some bs => some ((a * 16 + b) :: bs)
        | _, _, _ => none
      | _ => none
    else (percentDecode rest).map (fun bs => c.toNat :: bs)

/-- Decimal value of a digit string. -/
def digitsVal (l : List Char) : Nat :=
  l.foldl (fun a c => a * 10 + (c.toNat - 48)) 0

/-- ASCII whitespace as stripped by Python's `int()` before parsing. -/
def pyWhitespace (c : Char) : Bool :=
  c == ' ' || c == '\t' || c == '\n' || c == '\r' || c == '\x0b' || c == '\x0c'

/-- Strip leading and trailing whitespace. -/
def pyStrip (l : List Char) : List Char :=
  ((l.dropWhile pyWhitespace).reverse.dropWhile pyWhitespace).reverse

/--
Python's `int(str)` on a decimal string, as applied to the
`Content-Length` header (`s3_vision.py` line 84): surrounding whitespace
is stripped, an optional sign is allowed, and anything that is not then a
non-empty digit string raises `ValueError` (modelled as `none`).  Digit
grouping underscores, non-ASCII decimal digits and non-ASCII whitespace,
which CPython also accepts, are not modelled; no claim depends on them.
-/
def pyIntParse (s : String) : Option Int :=
  let t := pyStrip s.data
  let signAndDigits : Int × List Char :=
    match t with
    | '+' :: rest => (1, rest)
    | '-' :: rest => (-1, rest)
    | l => (1, l)
  if signAndDigits.2.isEmpty then none
  else if signAndDigits.2.all Char.isDigit then
    some (signAndDigits.1 * (digitsVal signAndDigits.2 : Int))
  else none

/-- The `ProbeResult` TypedDict of `s3_vision.py` (lines 24-34). -/
structure ProbeResult where
  symbol : String
  date : YMD
  available : Bool
  file_size_bytes : Option Int
  last_modified : Option Nat
  url : String
  status_code : Nat
  probe_timestamp : Nat
deriving DecidableEq, Repr

/--
What the single HTTP HEAD request in `check_symbol_availability` comes
back with: either a response (status plus the two headers the code reads,
each possibly absent), or one of the three exception classes the code
catches (`urllib3.exceptions.TimeoutError`, `urllib3.exceptions.HTTPError`,
any other `Exception`).
-/
inductive HttpOutcome where
  | response (status : Nat) (contentLength : Option String) (lastModified : Option String)
  | timeoutFailure (msg : String)
  | transportFailure (msg : String)
  | otherFailure (msg : String)
deriving DecidableEq, Repr

/-- The fixed S3 Vision URL template (`s3_vision.py` lines 71-74). -/
def buildUrl (symbol : String) (date : YMD) : String :=
  "https://data.binance.vision/data/futures/um/daily/klines/" ++ pyQuote symbol ++
    "/1m/" ++ pyQuote symbol ++ "-1m-" ++ formatDate date ++ ".zip"

/--
`check_symbol_availability` (`s3_vision.py` lines 37-137) over one HTTP
outcome.  `parsedate` abstracts the external library call
`email.utils.parsedate_to_datetime`, whose failures the code swallows
(`none` covers both a raised `ValueError` and a `None` result); the header
string is only handed to it when Python finds it truthy, i.e. non-empty.
A `RuntimeError` raised inside the `try` block (the non-200/404 branch, or
`int()` failing on `Content-Length`) is caught by the final generic
`except` clause and re-wrapped with the "Unexpected error" text.
-/
def check_symbol_availability (parsedate : String → Option Nat) (symbol : String)
    (date : YMD) (now : Nat) (outcome : HttpOutcome) : Except String ProbeResult :=
  let url := buildUrl symbol date
  let ctx := symbol ++ " on " ++ formatDate date
  match outcome with
  | .response status contentLength lastModified =>
    if status == 200 then
      let lm : Option Nat :=
        match lastModified with
        | some s => if s.isEmpty then none else parsedate s
        | none => none
      match contentLength with
      | some s =>
        match pyIntParse s with
        | some v =>
          .ok { symbol := symbol, date := date, available := true,
                file_size_bytes := some v, last_modified := lm,
                url := url, status_code := 200, probe_timestamp := now }
        | none =>
          .error ("Unexpected error probing " ++ ctx ++
            ": invalid literal for int() with base 10: " ++ s)
      | none =>
        .ok { symbol := symbol, date := date, available := true,
              file_size_bytes := some 0, last_modified := lm,
              url := url, status_code := 200, probe_timestamp := now }
    else if status == 404 then
      .ok { symbol := symbol, date := date, available := false,
            file_size_bytes := none, last_modified := none,
            url := url, status_code := 404, probe_timestamp := now }
    else
      .error ("Unexpected error probing " ++ ctx ++ ": S3 probe failed for " ++
        ctx ++ ": HTTP " ++ toString status)
  | .timeoutFailure m => .error ("Timeout probing " ++ ctx ++ ": " ++ m)
  | .transportFailure m => .error ("Network error probing " ++ ctx ++ ": " ++ m)
  | .otherFailure m => .error ("Unexpected error probing " ++ ctx ++ ": " ++ m)

/-! ## Batch prober: batch_prober.py -/

/-- The aggregated `RuntimeError` raised by `probe_all_symbols` when any
symbol's probe failed: the list of `(symbol, error message)` pairs and the
formatted message enumerating them. -/
structure BatchError where
  failed : List (String × String)
  message : String
deriving DecidableEq, Repr

/-- The aggregated error text of `batch_prober.py` lines 100-105. -/
def batchFailMsg (date : YMD) (total : Nat) (failed : List (String × String)) : String :=
  "Batch probe failed for " ++ toString failed.length ++ "/" ++ toString total ++
    " symbols on " ++ formatDate date ++ ":\n" ++
    String.intercalate "\n" (failed.map (fun p => "  - " ++ p.1 ++ ": " ++ p.2))

/--
`BatchProber.probe_all_symbols` (`batch_prober.py` lines 41-112) over an
abstract per-symbol probe.  The thread pool's completion order is
nondeterministic; it is modelled as submission order, which no claim
depends on.  Every submitted future is awaited: a failure is recorded and
collection continues, and only after all symbols are attempted does the
call either return all results or raise the single aggregated error.
-/
def probe_all_symbols (probe : String → Except String ProbeResult) (date : YMD)
    (symbols : List String) : Except BatchError (List ProbeResult) :=
  let collected := symbols.foldl
    (fun (acc : List ProbeResult × List (String × String)) s =>
      match probe s with
      | .ok r => (acc.1 ++ [r], acc.2)
      | .error e => (acc.1, acc.2 ++ [(s, e)]))
    ([], [])
  if collected.2.isEmpty then .ok collected.1
  else .error { failed := collected.2, message := batchFailMsg date symbols.length collected.2 }

/-! ## Checkpointed backfill: scheduler/backfill.py -/

/--
The start-date computation of `BackfillScheduler.run_backfill`
(`backfill.py` lines 107-119): default the start, then, if resume is
requested and `load_checkpoint` found a checkpoint file, restart at
checkpoint date plus one day.  Dates are ordinal day numbers.
-/
def computeStartDate (startArg : Option Nat) (resume : Bool)
    (checkpoint : Option Nat) (defaultStart : Nat) : Nat :=
  let s := startArg.getD defaultStart
  if resume then
    match checkpoint with
    | some c => c + 1
    | none => s
  else s

/-- The dates visited by the `while current_date <= end_date` loop of
`probe_date_range` (`batch_prober.py` lines 147-167), in order. -/
def backfillDates (start e : Nat) : List Nat :=
  List.range' start (e + 1 - start)

/--
The observable side effects of one backfill run, in program order:
a per-date batch probe, a checkpoint-file write (`save_checkpoint`),
the single `db.insert_batch` call on all accumulated results, and the
final `clear_checkpoint`.
-/
inductive BackfillEvent where
  | probeDate (d : Nat)
  | saveCheckpoint (d : Nat)
  | insertRecords (rs : List RecordDict)
  | clearCheckpoint
deriving DecidableEq, Repr

/--
The date loop of `probe_date_range` as run by `run_backfill`, whose
`checkpoint_callback` is `save_checkpoint` (`backfill.py` lines 129-145):
each date is probed, then its checkpoint is written, before the next date
begins; a probe failure stops the loop and is re-raised with the date's
context.  Returns the event trace and the accumulated results.
-/
def probeLoop (probe : Nat → Except String (List RecordDict)) :
    List Nat → List BackfillEvent × Except String (List RecordDict)
  | [] => ([], .ok [])
  | d :: ds =>
    match probe d with
    | .error e => ([.probeDate d], .error ("Probe failed for " ++ toString d ++ ": " ++ e))
    | .ok rs =>
      let rest := probeLoop probe ds
      ([.probeDate d, .saveCheckpoint d] ++ rest.1, rest.2.map (fun more => rs ++ more))

/--
`BackfillScheduler.run_backfill` over `[start, e]` (`backfill.py` lines
129-157), as its trace of side effects: after the whole date range is
probed (with a checkpoint write after each date), all accumulated results
are inserted into the store in one `insert_batch` call and the checkpoint
is cleared.  Database errors in the final insert are not modelled.
-/
def run_backfill_events (probe : Nat → Except String (List RecordDict))
    (start e : Nat) : List BackfillEvent × Except String Unit :=
  let loop := probeLoop probe (backfillDates start e)
  match loop.2 with
  | .error err => (loop.1, .error err)
  | .ok allResults => (loop.1 ++ [.insertRecords allResults, .clearCheckpoint], .ok ())

/-- The checkpoint-file content after a prefix of the event trace:
the last written date, or `none` once cleared or never written. -/
def checkpointAfter (evs : List BackfillEvent) : Option Nat :=
  evs.foldl
    (fun acc ev =>
      match ev with
      | .saveCheckpoint d => some d
      | .clearCheckpoint => none
      | _ => acc)
    none

/-- The dates whose probe results have been committed to the store after a
prefix of the event trace. -/
def committedDates (evs : List BackfillEvent) : List Nat :=
  evs.foldl
    (fun acc ev =>
      match ev with
      | .insertRecords rs => acc ++ rs.filterMap (fun r => r.date)
      | _ => acc)
    []

/-! ## Lemmas about the store -/

theorem rowsFor_upsertRow (t : List Row) (r : Row) (k : Nat × String) :
    rowsFor (upsertRow t r) k = if rowKey r = k then [r] else rowsFor t k := by
  unfold rowsFor upsertRow
  rw [List.filter_append, List.filter_filter]
  by_cases hk : rowKey r = k
  · subst hk
    simp
  · have hbeq : (rowKey r == k) = false := by
      simpa using hk
    simp only [List.filter_cons, hbeq, Bool.false_eq_true, if_false, List.filter_nil,
      List.append_nil, if_neg hk]
    apply List.filter_congr
    intro x _
    by_cases hx : rowKey x = k
    · have hxr : (rowKey x == rowKey r) = false := by
        rw [hx]
        simp only [beq_eq_false_iff_ne, ne_eq]
        exact fun h => hk h.symm
      simp only [hxr, Bool.not_false, Bool.true_and, Bool.and_true]
    · simp [hx]

theorem rowsFor_foldl_upsertRow (ts : List Row) :
    ∀ (t : List Row) (k : Nat × String),
      rowsFor (ts.foldl upsertRow t) k =
        match lastTupleFor ts k with
        | some r => [r]
        | none => rowsFor t k := by
  induction ts with
  | nil => intro t k; rfl
  | cons r ts ih =>
    intro t k
    simp only [List.foldl_cons, lastTupleFor]
    rw [ih (upsertRow t r) k]
    cases h : lastTupleFor ts k with
    | some r' => simp
    | none =>
      simp only [rowsFor_upsertRow]
      by_cases hk : rowKey r = k
      · simp [hk]
      · have : (rowKey r == k) = false := by simpa using hk
        simp [hk, this]

theorem insert_batch_table (db : DBState) (skip : Bool) (now : Nat)
    (records : List RecordDict) (tuples : List Row)
    (h : buildTuples records = .ok tuples) :
    ((insert_batch db skip now records).1).daily_availability =
        tuples.foldl upsertRow db.daily_availability ∧
      (insert_batch db skip now records).2 = none := by
  cases records with
  | nil =>
    unfold buildTuples at h
    cases h
    exact ⟨rfl, rfl⟩
  | cons r rs =>
    unfold insert_batch
    simp only [List.isEmpty_cons, if_false, Bool.false_eq_true, h]
    cases skip <;> simp [refresh_materialized_views]

theorem buildTuple_error_of_missing (r : RecordDict)
    (h : requiredKeysPresent r = false) :
    ∃ e, buildTuple r = .error e := by
  unfold buildTuple
  cases hd : r.date with
  | none => exact ⟨_, rfl⟩
  | some d =>
  cases hs : r.symbol with
  | none => exact ⟨_, rfl⟩
  | some s =>
  cases ha : r.available with
  | none => exact ⟨_, rfl⟩
  | some a =>
  cases hu : r.url with
  | none => exact ⟨_, rfl⟩
  | some u =>
  cases hsc : r.status_code with
  | none => exact ⟨_, rfl⟩
  | some sc =>
  cases hpt : r.probe_timestamp with
  | none => exact ⟨_, rfl⟩
  | some pt =>
  exfalso
  unfold requiredKeysPresent at h
  rw [hd, hs, ha, hu, hsc, hpt] at h
  simp at h

theorem buildTuples_error_of_missing (records : List RecordDict)
    (h : ∃ r ∈ records, requiredKeysPresent r = false) :
    ∃ e, buildTuples records = .error e := by
  induction records with
  | nil => simp at h
  | cons r rs ih =>
    unfold buildTuples
    cases hr : buildTuple r with
    | error e => exact ⟨e, rfl⟩
    | ok row =>
      obtain ⟨x, hx, hxbad⟩ := h
      rcases List.mem_cons.mp hx with hxr | hxrs
      · obtain ⟨e, he⟩ := buildTuple_error_of_missing x hxbad
        rw [hxr] at he
        rw [he] at hr
        cases hr
      · obtain ⟨e, he⟩ := ih ⟨x, hxrs, hxbad⟩
        exact ⟨e, by rw [he]⟩

theorem countFor_append (l1 l2 : List CountRow) (d : Nat) :
    countFor (l1 ++ l2) d =
      match countFor l2 d with
      | some c => some c
      | none => countFor l1 d := by
  induction l1 with
  | nil =>
    simp only [List.nil_append]
    cases countFor l2 d <;> rfl
  | cons c cs ih =>
    cases h2 : countFor l2 d with
    | some c' =>
      show countFor (c :: (cs ++ l2)) d = some c'
      unfold countFor
      rw [ih, h2]
    | none =>
      show countFor (c :: (cs ++ l2)) d = countFor (c :: cs) d
      unfold countFor
      rw [ih, h2]

theorem countFor_filter (cs : List CountRow) (p : CountRow → Bool) (d : Nat)
    (h : ∀ x, x.date = d → p x = true) :
    countFor (cs.filter p) d = countFor cs d := by
  induction cs with
  | nil => rfl
  | cons c cs ih =>
    by_cases hc : c.date = d
    · rw [List.filter_cons_of_pos (h c hc)]
      simp only [countFor, ih]
    · have hb : (c.date == d) = false := by simpa using hc
      cases hp : p c with
      | true =>
        rw [List.filter_cons_of_pos hp]
        simp only [countFor, ih, hb]
      | false =>
        rw [List.filter_cons_of_neg (by simp [hp])]
        simp only [countFor, ih, hb]
        cases countFor cs d <;> simp [hb]

theorem countFor_upsertCount_self (cs : List CountRow) (c : CountRow) :
    countFor (upsertCount cs c) c.date = some c := by
  unfold upsertCount
  rw [countFor_append]
  simp [countFor]

theorem countFor_upsertCount_ne (cs : List CountRow) (c : CountRow) (d : Nat)
    (h : d ≠ c.date) :
    countFor (upsertCount cs c) d = countFor cs d := by
  unfold upsertCount
  rw [countFor_append]
  have hb : (c.date == d) = false := by
    simp only [beq_eq_false_iff_ne, ne_eq]
    exact fun hc => h hc.symm
  simp only [countFor, hb, Bool.false_eq_true, if_false]
  rw [countFor_filter]
  intro x hx
  simp only [Bool.not_eq_eq_eq_not, Bool.not_true, beq_eq_false_iff_ne, ne_eq]
  rw [hx]
  exact h

theorem countFor_refresh_foldl_not_mem (t : List Row) (now : Nat) (ds : List Nat) :
    ∀ (cs : List CountRow) (d : Nat), d ∉ ds →
      countFor (ds.foldl (fun acc d' => upsertCount acc (mkCount t d' now)) cs) d =
        countFor cs d := by
  induction ds with
  | nil => intro cs d _; rfl
  | cons d' ds ih =>
    intro cs d hd
    simp only [List.foldl_cons]
    rw [ih _ d (fun hmem => hd (List.mem_cons_of_mem _ hmem))]
    exact countFor_upsertCount_ne _ _ _ (fun he => hd (he ▸ List.mem_cons_self d' ds))

theorem countFor_refresh_foldl_mem (t : List Row) (now : Nat) (ds : List Nat) :
    ∀ (cs : List CountRow) (d : Nat), ds.Nodup → d ∈ ds →
      countFor (ds.foldl (fun acc d' => upsertCount acc (mkCount t d' now)) cs) d =
        some (mkCount t d now) := by
  induction ds with
  | nil => intro cs d _ h; cases h
  | cons d' ds ih =>
    intro cs d hnd hd
    simp only [List.foldl_cons]
    rcases List.mem_cons.mp hd with hdd | hmem
    · subst hdd
      rw [countFor_refresh_foldl_not_mem t now ds _ d (List.Nodup.not_mem hnd)]
      exact countFor_upsertCount_self _ _
    · exact ih _ d (List.Nodup.of_cons hnd) hmem

theorem exists_date_upsertRow (t : List Row) (r : Row) (d : Nat)
    (h : ∃ x ∈ t, x.date = d) :
    ∃ x ∈ upsertRow t r, x.date = d := by
  obtain ⟨x, hx, hxd⟩ := h
  by_cases hk : (rowKey x == rowKey r) = true
  · refine ⟨r, List.mem_append_right _ (List.mem_singleton_self r), ?_⟩
    have : rowKey x = rowKey r := by simpa using hk
    have hdd : x.date = r.date := congrArg Prod.fst this
    rw [← hdd, hxd]
  · refine ⟨x, List.mem_append_left _ ?_, hxd⟩
    rw [List.mem_filter]
    exact ⟨hx, by simp [hk]⟩

theorem exists_date_foldl_upsertRow (ts : List Row) :
    ∀ (t : List Row) (d : Nat),
      ((∃ r ∈ ts, r.date = d) ∨ (∃ x ∈ t, x.date = d)) →
      ∃ x ∈ ts.foldl upsertRow t, x.date = d := by
  induction ts with
  | nil =>
    intro t d h
    rcases h with h | h
    · obtain ⟨r, hr, _⟩ := h
      cases hr
    · exact h
  | cons r ts ih =>
    intro t d h
    simp only [List.foldl_cons]
    apply ih
    rcases h with h | h
    · obtain ⟨x, hx, hxd⟩ := h
      rcases List.mem_cons.mp hx with hxr | hmem
      · subst hxr
        exact Or.inr ⟨x, List.mem_append_right _ (List.mem_singleton_self x), hxd⟩
      · exact Or.inl ⟨x, hmem, hxd⟩
    · exact Or.inr (exists_date_upsertRow t r d h)

theorem buildTuple_date (r : RecordDict) (row : Row)
    (h : buildTuple r = .ok row) : r.date = some row.date := by
  unfold buildTuple at h
  cases hd : r.date <;> rw [hd] at h
  · cases h
  cases hs : r.symbol <;> rw [hs] at h
  · cases h
  cases ha : r.available <;> rw [ha] at h
  · cases h
  cases hu : r.url <;> rw [hu] at h
  · cases h
  cases hsc : r.status_code <;> rw [hsc] at h
  · cases h
  cases hpt : r.probe_timestamp <;> rw [hpt] at h
  · cases h
  cases h
  rfl

theorem buildTuples_dates (records : List RecordDict) :
    ∀ (tuples : List Row), buildTuples records = .ok tuples →
      tuples.map (fun row => row.date) = records.filterMap (fun r => r.date) := by
  induction records with
  | nil =>
    intro tuples h
    unfold buildTuples at h
    cases h
    rfl
  | cons r rs ih =>
    intro tuples h
    unfold buildTuples at h
    cases hr : buildTuple r with
    | error e => rw [hr] at h; cases h
    | ok row =>
      rw [hr] at h
      cases hrs : buildTuples rs with
      | error e => rw [hrs] at h; cases h
      | ok rows =>
        rw [hrs] at h
        cases h
        rw [List.filterMap_cons, buildTuple_date r row hr]
        simp only [List.map_cons, ih rows hrs]

theorem insert_batch_state (db : DBState) (now : Nat) (records : List RecordDict)
    (tuples : List Row) (h : buildTuples records = .ok tuples) (hne : records ≠ []) :
    (insert_batch db false now records).1 =
      { daily_availability := tuples.foldl upsertRow db.daily_availability,
        daily_symbol_counts :=
          refreshCounts (tuples.foldl upsertRow db.daily_availability)
            db.daily_symbol_counts now } := by
  cases records with
  | nil => exact absurd rfl hne
  | cons r rs =>
    unfold insert_batch
    simp only [List.isEmpty_cons, Bool.false_eq_true, if_false, h]
    rfl

/-! ## Claim theorems about the store -/

/--
C9: calling `insert_batch` with an empty record list is a no-op: it raises
no exception, inserts no rows, and leaves the entire store state (both
`daily_availability` and `daily_symbol_counts`) unchanged.
-/
theorem insert_batch_empty_noop (db : DBState) (skip : Bool) (now : Nat) :
    insert_batch db skip now [] = (db, none) :=
  rfl

/--
C10: if any record of a non-empty batch lacks one of the six required keys
(`date`, `symbol`, `available`, `url`, `status_code`, `probe_timestamp`),
`insert_batch` raises a wrapped `RuntimeError` reporting the batch size and
leaves the store completely unchanged — no record of the batch is inserted
and the aggregate table is not refreshed, because all parameter tuples are
constructed before any database statement executes.
-/
theorem insert_batch_missing_key_rejects_batch (db : DBState) (skip : Bool)
    (now : Nat) (records : List RecordDict) (hne : records ≠ [])
    (hbad : ∃ r ∈ records, requiredKeysPresent r = false) :
    (insert_batch db skip now records).1 = db ∧
      ∃ e, (insert_batch db skip now records).2 =
        some ("Failed to insert batch of " ++ toString records.length ++
          " records: " ++ e) := by
  obtain ⟨e, he⟩ := buildTuples_error_of_missing records hbad
  cases records with
  | nil => exact absurd rfl hne
  | cons r rs =>
    have hres : insert_batch db skip now (r :: rs) =
        (db, some ("Failed to insert batch of " ++ toString (r :: rs).length ++
          " records: " ++ e)) := by
      unfold insert_batch
      simp only [List.isEmpty_cons, Bool.false_eq_true, if_false, he]
    rw [hres]
    exact ⟨rfl, e, rfl⟩

/-- A batch record whose dict lacks the required `date` key. -/
def badRecordC10 : RecordDict :=
  { symbol := some "BTCUSDT", available := some true, url := some "u",
    status_code := some 200, probe_timestamp := some 0 }

/-- Witness for C10 at a concrete one-record batch missing its `date` key. -/
theorem insert_batch_missing_key_rejects_batch_witness :
    (insert_batch ⟨[], []⟩ false 0 [badRecordC10]).1 = (⟨[], []⟩ : DBState) ∧
      ∃ e, (insert_batch ⟨[], []⟩ false 0 [badRecordC10]).2 =
        some ("Failed to insert batch of " ++ toString [badRecordC10].length ++
          " records: " ++ e) :=
  insert_batch_missing_key_rejects_batch ⟨[], []⟩ false 0 [badRecordC10]
    (List.cons_ne_nil _ _) ⟨badRecordC10, List.mem_singleton_self _, by decide⟩

/--
C1: the upsert is keyed uniquely by `(date, symbol)`.  After two
`insert_batch` calls, the rows of `daily_availability` holding any primary
key `k` are: exactly the last record of the second batch with key `k` if
the second batch covers `k`; otherwise exactly the last record of the
first batch with key `k` if the first batch covers `k`; otherwise whatever
the initial table held.  In particular re-probing a `(date, symbol)` pair
(even with a changed `file_size_bytes`) leaves exactly one row for it,
holding the second call's values, and batches with overlapping key sets
leave exactly one row per distinct covered pair — never a duplicate, with
later writes overwriting earlier ones.
-/
theorem insert_batch_upsert_unique (db : DBState) (skip : Bool)
    (now1 now2 : Nat) (b1 b2 : List RecordDict) (t1 t2 : List Row)
    (h1 : buildTuples b1 = .ok t1) (h2 : buildTuples b2 = .ok t2)
    (k : Nat × String) :
    rowsFor ((insert_batch (insert_batch db skip now1 b1).1 skip now2 b2).1).daily_availability k =
        (match lastTupleFor t2 k with
         | some r => [r]
         | none =>
           match lastTupleFor t1 k with
           | some r => [r]
           | none => rowsFor db.daily_availability k) ∧
      ((lastTupleFor t1 k).isSome = true ∨ (lastTupleFor t2 k).isSome = true →
        (rowsFor ((insert_batch (insert_batch db skip now1 b1).1 skip now2 b2).1).daily_availability k).length = 1) := by
  obtain ⟨ht1, -⟩ := insert_batch_table db skip now1 b1 t1 h1
  obtain ⟨ht2, -⟩ := insert_batch_table (insert_batch db skip now1 b1).1 skip now2 b2 t2 h2
  rw [ht2, rowsFor_foldl_upsertRow, ht1, rowsFor_foldl_upsertRow]
  refine ⟨rfl, ?_⟩
  intro hcov
  cases hl2 : lastTupleFor t2 k with
  | some r => simp
  | none =>
    cases hl1 : lastTupleFor t1 k with
    | some r => simp
    | none =>
      rw [hl1, hl2] at hcov
      simp at hcov

/-- First probe of the C1 witness pair. -/
def recC1a : RecordDict :=
  { date := some 19738, symbol := some "BTCUSDT", available := some true,
    file_size_bytes := some 8421945, url := some "https://example",
    status_code := some 200, probe_timestamp := some 1 }

/-- Re-probe of the same `(date, symbol)` pair with a changed
`file_size_bytes`. -/
def recC1b : RecordDict :=
  { date := some 19738, symbol := some "BTCUSDT", available := some true,
    file_size_bytes := some 999, url := some "https://example",
    status_code := some 200, probe_timestamp := some 2 }

/-- The table row of `recC1a`. -/
def rowC1a : Row :=
  { date := 19738, symbol := "BTCUSDT", available := true,
    file_size_bytes := some 8421945, last_modified := none,
    url := "https://example", status_code := 200, probe_timestamp := 1,
    quote_volume_usdt := none, trade_count := none, volume_base := none,
    taker_buy_volume_base := none, taker_buy_quote_volume_usdt := none,
    open_price := none, high_price := none, low_price := none,
    close_price := none }

/-- The table row of `recC1b`. -/
def rowC1b : Row :=
  { date := 19738, symbol := "BTCUSDT", available := true,
    file_size_bytes := some 999, last_modified := none,
    url := "https://example", status_code := 200, probe_timestamp := 2,
    quote_volume_usdt := none, trade_count := none, volume_base := none,
    taker_buy_volume_base := none, taker_buy_quote_volume_usdt := none,
    open_price := none, high_price := none, low_price := none,
    close_price := none }

/-- Witness for C1: inserting the same `(date, symbol)` twice with a
changed `file_size_bytes` leaves exactly the single second-call row. -/
theorem insert_batch_upsert_unique_witness :
    rowsFor ((insert_batch (insert_batch ⟨[], []⟩ false 0 [recC1a]).1 false 0 [recC1b]).1).daily_availability (19738, "BTCUSDT") = [rowC1b] ∧
      (rowsFor ((insert_batch (insert_batch ⟨[], []⟩ false 0 [recC1a]).1 false 0 [recC1b]).1).daily_availability (19738, "BTCUSDT")).length = 1 := by
  have h := insert_batch_upsert_unique ⟨[], []⟩ false 0 0 [recC1a] [recC1b]
    [rowC1a] [rowC1b] rfl rfl (19738, "BTCUSDT")
  exact ⟨h.1, h.2 (Or.inr rfl)⟩

/--
C5 (amended): after every successful `insert_batch` call on a database
opened with the default `skip_materialized_refresh = False`, for every
date present in the inserted records the `daily_symbol_counts` row for
that date exists and its `total_symbols`, `available_symbols` and
`unavailable_symbols` equal the corresponding counts over the
`daily_availability` rows of that date.
-/
theorem insert_batch_refresh_consistency (db : DBState) (now : Nat)
    (records : List RecordDict) (tuples : List Row)
    (h : buildTuples records = .ok tuples) (d : Nat)
    (hd : d ∈ records.filterMap (fun r => r.date)) :
    ∃ c, countFor ((insert_batch db false now records).1).daily_symbol_counts d = some c ∧
      c.total_symbols =
        (((insert_batch db false now records).1).daily_availability.filter
          (fun r => r.date == d)).length ∧
      c.available_symbols =
        (((insert_batch db false now records).1).daily_availability.filter
          (fun r => r.date == d && r.available)).length ∧
      c.unavailable_symbols =
        (((insert_batch db false now records).1).daily_availability.filter
          (fun r => r.date == d && !r.available)).length := by
  have hne : records ≠ [] := by
    intro hnil
    rw [hnil] at hd
    simp at hd
  rw [insert_batch_state db now records tuples h hne]
  have htup : d ∈ tuples.map (fun row => row.date) := by
    rw [buildTuples_dates records tuples h]
    exact hd
  obtain ⟨row, hrow, hrowd⟩ := List.mem_map.mp htup
  have hT : ∃ x ∈ tuples.foldl upsertRow db.daily_availability, x.date = d :=
    exists_date_foldl_upsertRow tuples db.daily_availability d (Or.inl ⟨row, hrow, hrowd⟩)
  have hmemT : d ∈ ((tuples.foldl upsertRow db.daily_availability).map
      (fun x => x.date)).dedup := by
    rw [List.mem_dedup]
    obtain ⟨x, hx, hxd⟩ := hT
    exact List.mem_map.mpr ⟨x, hx, hxd⟩
  refine ⟨mkCount (tuples.foldl upsertRow db.daily_availability) d now, ?_, rfl, rfl, rfl⟩
  exact countFor_refresh_foldl_mem _ now _ _ d (List.nodup_dedup _) hmemT

/-- Witness for C5's amended theorem at a concrete one-record batch. -/
theorem insert_batch_refresh_consistency_witness :
    ∃ c, countFor ((insert_batch ⟨[], []⟩ false 7 [recC1a]).1).daily_symbol_counts 19738 = some c ∧
      c.total_symbols =
        (((insert_batch ⟨[], []⟩ false 7 [recC1a]).1).daily_availability.filter
          (fun r => r.date == 19738)).length ∧
      c.available_symbols =
        (((insert_batch ⟨[], []⟩ false 7 [recC1a]).1).daily_availability.filter
          (fun r => r.date == 19738 && r.available)).length ∧
      c.unavailable_symbols =
        (((insert_batch ⟨[], []⟩ false 7 [recC1a]).1).daily_availability.filter
          (fun r => r.date == 19738 && !r.available)).length :=
  insert_batch_refresh_consistency ⟨[], []⟩ 7 [recC1a] [rowC1a] rfl 19738 (by decide)

/-- The batch record of the C5 counterexample. -/
def recC5 : RecordDict :=
  { date := some 15, symbol := some "BTCUSDT", available := some true,
    url := some "u", status_code := some 200, probe_timestamp := some 0 }

/--
Counterexample to C5 as stated: on a database opened with
`skip_materialized_refresh = True`, a successful `insert_batch` leaves one
`daily_availability` row for date 15 but no `daily_symbol_counts` row at
all for that date, so the aggregate's `total_symbols` does not equal the
base-table count past the end of the ingestion call.
-/
theorem insert_batch_skip_refresh_diverges :
    (insert_batch ⟨[], []⟩ true 0 [recC5]).2 = none ∧
      (((insert_batch ⟨[], []⟩ true 0 [recC5]).1).daily_availability.filter
        (fun r => r.date == 15)).length = 1 ∧
      countFor ((insert_batch ⟨[], []⟩ true 0 [recC5]).1).daily_symbol_counts 15 = none :=
  ⟨rfl, rfl, rfl⟩

/-! ## Claim theorems about the existence prober -/

/-- Whether the embedded `check_symbol_availability` raised a
`RuntimeError` rather than returning a `ProbeResult`. -/
def raisesRuntimeError (r : Except String ProbeResult) : Bool :=
  match r with
  | .ok _ => false
  | .error _ => true

/--
C4 (amended): the single-symbol probe raises exactly when the remote
outcome is neither a 404 response nor a 200 response whose
`Content-Length` header is absent or parses as an integer: every other
status code, a timeout, and any transport-level failure raise immediately
with no retry, and a 200 response with an unparseable `Content-Length`
also raises; a 404 response is not an error and returns
`available = false`, `status_code = 404`, `file_size_bytes = none`,
`last_modified = none` without raising.
-/
theorem check_symbol_availability_raise_policy (parsedate : String → Option Nat)
    (symbol : String) (date : YMD) (now : Nat) :
    (∀ cl lm, check_symbol_availability parsedate symbol date now (.response 404 cl lm) =
        .ok { symbol := symbol, date := date, available := false,
              file_size_bytes := none, last_modified := none,
              url := buildUrl symbol date, status_code := 404,
              probe_timestamp := now }) ∧
      (∀ s cl lm, s ≠ 200 → s ≠ 404 →
        raisesRuntimeError
          (check_symbol_availability parsedate symbol date now (.response s cl lm)) = true) ∧
      (∀ m,
        raisesRuntimeError
            (check_symbol_availability parsedate symbol date now (.timeoutFailure m)) = true ∧
          raisesRuntimeError
            (check_symbol_availability parsedate symbol date now (.transportFailure m)) = true ∧
          raisesRuntimeError
            (check_symbol_availability parsedate symbol date now (.otherFailure m)) = true) ∧
      (∀ lm,
        raisesRuntimeError
          (check_symbol_availability parsedate symbol date now (.response 200 none lm)) = false) ∧
      (∀ s lm,
        raisesRuntimeError
          (check_symbol_availability parsedate symbol date now (.response 200 (some s) lm)) =
          !(pyIntParse s).isSome) := by
  refine ⟨fun cl lm => rfl, ?_, fun m => ⟨rfl, rfl, rfl⟩, fun lm => rfl, ?_⟩
  · intro s cl lm h200 h404
    have hb200 : (s == 200) = false := by simpa using h200
    have hb404 : (s == 404) = false := by simpa using h404
    unfold check_symbol_availability
    simp only [hb200, hb404, Bool.false_eq_true, if_false]
    rfl
  · intro s lm
    unfold check_symbol_availability
    cases hp : pyIntParse s with
    | some v => simp [hp, raisesRuntimeError]
    | none => simp [hp, raisesRuntimeError]

/-- Witness for C4's amended theorem: a 500 response raises, a timeout
raises, a 404 returns the non-error `available = false` result, and a 200
response with numeric `Content-Length` does not raise. -/
theorem check_symbol_availability_raise_policy_witness :
    check_symbol_availability (fun _ => none) "BTCUSDT" ⟨2024, 1, 15⟩ 0 (.response 404 none none) =
        .ok { symbol := "BTCUSDT", date := ⟨2024, 1, 15⟩, available := false,
              file_size_bytes := none, last_modified := none,
              url := buildUrl "BTCUSDT" ⟨2024, 1, 15⟩, status_code := 404,
              probe_timestamp := 0 } ∧
      raisesRuntimeError (check_symbol_availability (fun _ => none) "BTCUSDT" ⟨2024, 1, 15⟩ 0
        (.response 500 none none)) = true ∧
      raisesRuntimeError (check_symbol_availability (fun _ => none) "BTCUSDT" ⟨2024, 1, 15⟩ 0
        (.timeoutFailure "t")) = true ∧
      raisesRuntimeError (check_symbol_availability (fun _ => none) "BTCUSDT" ⟨2024, 1, 15⟩ 0
        (.response 200 (some "8421945") none)) = !(pyIntParse "8421945").isSome := by
  have h := check_symbol_availability_raise_policy (fun _ => none) "BTCUSDT" ⟨2024, 1, 15⟩ 0
  exact ⟨h.1 none none, h.2.1 500 none none (by decide) (by decide),
    (h.2.2.1 "t").1, h.2.2.2.2 "8421945" none⟩

/--
Counterexample to C4 as stated: a 200-equivalent response whose
`Content-Length` header is the non-numeric string "abc" makes the probe
raise (Python's `int()` raises `ValueError`, re-wrapped by the generic
handler), although the claim says the probe raises only when the response
is neither 200-equivalent nor 404-equivalent.
-/
theorem check_symbol_availability_raises_on_200_bad_content_length :
    raisesRuntimeError (check_symbol_availability (fun _ => none) "BTCUSDT" ⟨2024, 1, 15⟩ 0
      (.response 200 (some "abc") none)) = true :=
  rfl

/--
C6 (amended): in every `ProbeResult` the probe returns, `file_size_bytes`
is non-null exactly when `available = true`; `last_modified` is null
whenever `available = false`, and non-null only when `available = true` —
but a 200 response whose `Last-Modified` header is absent or unparseable
yields `available = true` with `last_modified = null`.
-/
theorem check_symbol_availability_metadata (parsedate : String → Option Nat)
    (symbol : String) (date : YMD) (now : Nat) (outcome : HttpOutcome)
    (r : ProbeResult)
    (h : check_symbol_availability parsedate symbol date now outcome = .ok r) :
    (r.file_size_bytes.isSome = true ↔ r.available = true) ∧
      (r.available = false → r.last_modified = none) ∧
      (r.last_modified.isSome = true → r.available = true) := by
  cases outcome with
  | response status cl lm =>
    by_cases h200 : (status == 200) = true
    · cases cl with
      | some s =>
        cases hp : pyIntParse s with
        | some v =>
          simp only [check_symbol_availability, h200, if_true, hp] at h
          cases h
          simp
        | none =>
          simp only [check_symbol_availability, h200, if_true, hp] at h
          cases h
      | none =>
        simp only [check_symbol_availability, h200, if_true] at h
        cases h
        simp
    · by_cases h404 : (status == 404) = true
      · simp only [check_symbol_availability, h200, h404, Bool.false_eq_true, if_false,
          if_true] at h
        cases h
        simp
      · simp only [check_symbol_availability, h200, h404, Bool.false_eq_true, if_false] at h
        cases h
  | timeoutFailure m => cases h
  | transportFailure m => cases h
  | otherFailure m => cases h

/-- Witness for C6's amended theorem at a concrete 200 response carrying
both headers. -/
theorem check_symbol_availability_metadata_witness :
    ((check_symbol_availability (fun _ => some 99) "BTCUSDT" ⟨2024, 1, 15⟩ 0
        (.response 200 (some "8421945") (some "Mon, 15 Jan 2024 02:00:00 GMT")) = .ok
          { symbol := "BTCUSDT", date := ⟨2024, 1, 15⟩, available := true,
            file_size_bytes := some 8421945, last_modified := some 99,
            url := buildUrl "BTCUSDT" ⟨2024, 1, 15⟩, status_code := 200,
            probe_timestamp := 0 }) ∧
      (((some 8421945 : Option Int).isSome = true ↔ true = true) ∧
        (true = false → (some 99 : Option Nat) = none) ∧
        ((some 99 : Option Nat).isSome = true → true = true))) := by
  constructor
  · rfl
  · exact check_symbol_availability_metadata (fun _ => some 99) "BTCUSDT" ⟨2024, 1, 15⟩ 0
      (.response 200 (some "8421945") (some "Mon, 15 Jan 2024 02:00:00 GMT")) _ rfl

/--
Counterexample to C6 as stated: a 200 response with a numeric
`Content-Length` but no `Last-Modified` header yields a returned result
with `available = true` and `last_modified = none`, contradicting
"`last_modified` is non-null if and only if `available = true`".
-/
theorem check_symbol_availability_missing_last_modified :
    ∃ r, check_symbol_availability (fun _ => some 0) "BTCUSDT" ⟨2024, 1, 15⟩ 0
        (.response 200 (some "8421945") none) = .ok r ∧
      r.available = true ∧ r.last_modified = none :=
  ⟨_, rfl, rfl, rfl⟩

/-! ## Percent-encoding lemmas (C7) -/

theorem alwaysSafeByte_bounds (b : Nat) (h : alwaysSafeByte b = true) :
    b < 128 ∧ b ≠ 37 := by
  unfold alwaysSafeByte at h
  simp only [Bool.or_eq_true, Bool.and_eq_true, decide_eq_true_eq, beq_iff_eq] at h
  omega

theorem toNat_ofNat_of_lt (b : Nat) (h : b < 55296) : (Char.ofNat b).toNat = b := by
  have hv : Nat.isValidChar b := Or.inl h
  simp [Char.ofNat, hv, Char.ofNatAux, Char.toNat, UInt32.toNat]

theorem hexVal_hexDigitChar : ∀ n, n < 16 → hexVal (hexDigitChar n) = some n := by
  decide

theorem ofNat_ne_percent (b : Nat) (hlt : b < 128) (hne : b ≠ 37) :
    Char.ofNat b ≠ '%' := by
  intro he
  have := toNat_ofNat_of_lt b (by omega)
  rw [he] at this
  exact hne (by simpa using this.symm)

theorem percentDecode_encodeByte (b : Nat) (hb : b < 256) (cs : List Char)
    (bs : List Nat) (h : percentDecode cs = some bs) :
    percentDecode (encodeByte b ++ cs) = some (b :: bs) := by
  unfold encodeByte
  by_cases hsafe : alwaysSafeByte b = true
  · obtain ⟨hlt, hne⟩ := alwaysSafeByte_bounds b hsafe
    rw [if_pos hsafe]
    show percentDecode (Char.ofNat b :: cs) = some (b :: bs)
    unfold percentDecode
    rw [if_neg (ofNat_ne_percent b hlt hne), h, toNat_ofNat_of_lt b (by omega)]
    rfl
  · rw [if_neg hsafe]
    show percentDecode ('%' :: hexDigitChar (b / 16) :: hexDigitChar (b % 16) :: cs) =
      some (b :: bs)
    unfold percentDecode
    rw [if_pos rfl]
    simp only [hexVal_hexDigitChar (b / 16) (by omega),
      hexVal_hexDigitChar (b % 16) (by omega), h]
    have hdm : b / 16 * 16 + b % 16 = b := by omega
    rw [hdm]

theorem percentDecode_flatMap_encodeByte (bs : List Nat)
    (h : ∀ b ∈ bs, b < 256) :
    percentDecode (bs.flatMap encodeByte) = some bs := by
  induction bs with
  | nil => rfl
  | cons b bs ih =>
    rw [List.flatMap_cons]
    exact percentDecode_encodeByte b (h b (List.mem_cons_self b bs)) _ bs
      (ih fun x hx => h x (List.mem_cons_of_mem b hx))

theorem char_toNat_lt (c : Char) : c.toNat < 1114112 := by
  rcases c.valid with h | ⟨_, h2⟩
  · exact Nat.lt_trans h (by norm_num)
  · exact h2

theorem utf8EncodeChar_lt (c : Char) : ∀ b ∈ utf8EncodeChar c, b < 256 := by
  intro b hb
  have hc := char_toNat_lt c
  unfold utf8EncodeChar at hb
  by_cases h1 : c.toNat < 128
  · rw [if_pos h1] at hb
    simp only [List.mem_cons, List.not_mem_nil, or_false] at hb
    omega
  · rw [if_neg h1] at hb
    by_cases h2 : c.toNat < 2048
    · rw [if_pos h2] at hb
      simp only [List.mem_cons, List.not_mem_nil, or_false] at hb
      rcases hb with rfl | rfl <;> omega
    · rw [if_neg h2] at hb
      by_cases h3 : c.toNat < 65536
      · rw [if_pos h3] at hb
        simp only [List.mem_cons, List.not_mem_nil, or_false] at hb
        rcases hb with rfl | rfl | rfl <;> omega
      · rw [if_neg h3] at hb
        simp only [List.mem_cons, List.not_mem_nil, or_false] at hb
        rcases hb with rfl | rfl | rfl | rfl <;> omega

theorem utf8Bytes_lt (s : String) : ∀ b ∈ utf8Bytes s, b < 256 := by
  intro b hb
  unfold utf8Bytes at hb
  obtain ⟨c, _, hbc⟩ := List.mem_flatMap.mp hb
  exact utf8EncodeChar_lt c b hbc

theorem percentDecode_pyQuote (s : String) :
    percentDecode (pyQuote s).data = some (utf8Bytes s) :=
  percentDecode_flatMap_encodeByte (utf8Bytes s) (utf8Bytes_lt s)

theorem encodeByte_ascii (b : Nat) (hb : b < 256) :
    ∀ c ∈ encodeByte b, c.toNat < 128 := by
  intro c hc
  unfold encodeByte at hc
  by_cases hsafe : alwaysSafeByte b = true
  · obtain ⟨hlt, -⟩ := alwaysSafeByte_bounds b hsafe
    rw [if_pos hsafe] at hc
    simp only [List.mem_cons, List.not_mem_nil, or_false] at hc
    rw [hc, toNat_ofNat_of_lt b (by omega)]
    exact hlt
  · rw [if_neg hsafe] at hc
    simp only [List.mem_cons, List.not_mem_nil, or_false] at hc
    have hhex : ∀ n, n < 16 → (hexDigitChar n).toNat < 128 := by decide
    rcases hc with rfl | rfl | rfl
    · decide
    · exact hhex (b / 16) (by omega)
    · exact hhex (b % 16) (by omega)

theorem pyQuote_ascii (s : String) : ∀ c ∈ (pyQuote s).data, c.toNat < 128 := by
  intro c hc
  unfold pyQuote at hc
  obtain ⟨b, hb, hcb⟩ := List.mem_flatMap.mp hc
  exact encodeByte_ascii b (utf8Bytes_lt s b hb) c hcb

theorem natToDigits_digits (n : Nat) :
    ∀ c ∈ natToDigits n, 48 ≤ c.toNat ∧ c.toNat ≤ 57 := by
  induction n using Nat.strong_induction_on with
  | _ n ih =>
    intro c hc
    unfold natToDigits at hc
    by_cases h10 : n < 10
    · rw [if_pos h10] at hc
      simp only [List.mem_singleton] at hc
      rw [hc]
      unfold digitChar
      rw [toNat_ofNat_of_lt (48 + n) (by omega)]
      omega
    · rw [if_neg h10] at hc
      rcases List.mem_append.mp hc with hc | hc
      · exact ih (n / 10) (Nat.div_lt_self (by omega) (by omega)) c hc
      · simp only [List.mem_singleton] at hc
        rw [hc]
        unfold digitChar
        rw [toNat_ofNat_of_lt (48 + n % 10) (by omega)]
        omega

theorem formatDate_chars (d : YMD) :
    ∀ c ∈ (formatDate d).data, c.toNat < 128 ∧ c ≠ '%' := by
  intro c hc
  have hd : ∀ c', (48 ≤ c'.toNat ∧ c'.toNat ≤ 57) → c'.toNat < 128 ∧ c' ≠ '%' := by
    intro c' h
    refine ⟨by omega, fun he => ?_⟩
    rw [he] at h
    revert h
    decide
  unfold formatDate at hc
  simp only [String.data] at hc
  simp only [List.append_assoc, List.mem_append, List.mem_singleton] at hc
  rcases hc with hc | hc | hc | hc | hc
  · exact hd c (natToDigits_digits d.year c hc)
  · rw [hc]; exact ⟨by decide, by decide⟩
  · unfold zfill at hc
    rcases List.mem_append.mp hc with hc | hc
    · have : c = '0' := by
        have := List.eq_of_mem_replicate hc
        exact this
      rw [this]; exact ⟨by decide, by decide⟩
    · exact hd c (natToDigits_digits d.month c hc)
  · rw [hc]; exact ⟨by decide, by decide⟩
  · unfold zfill at hc
    rcases List.mem_append.mp hc with hc | hc
    · have : c = '0' := List.eq_of_mem_replicate hc
      rw [this]; exact ⟨by decide, by decide⟩
    · exact hd c (natToDigits_digits d.day c hc)

theorem pyQuote_no_percent (s : String)
    (hs : ∀ c ∈ s.data, alwaysSafeByte c.toNat = true) :
    ∀ c ∈ (pyQuote s).data, c ≠ '%' := by
  intro c hc
  unfold pyQuote at hc
  obtain ⟨b, hb, hcb⟩ := List.mem_flatMap.mp hc
  unfold utf8Bytes at hb
  obtain ⟨ch, hch, hbch⟩ := List.mem_flatMap.mp hb
  have hsafe := hs ch hch
  obtain ⟨hlt, hne⟩ := alwaysSafeByte_bounds _ hsafe
  have hb_eq : b = ch.toNat := by
    unfold utf8EncodeChar at hbch
    rw [if_pos hlt] at hbch
    simpa using hbch
  subst hb_eq
  unfold encodeByte at hcb
  rw [if_pos hsafe] at hcb
  simp only [List.mem_cons, List.not_mem_nil, or_false] at hcb
  subst hcb
  exact ofNat_ne_percent _ hlt hne

/--
C7 (amended): the probe URL is built with `quote(symbol, safe='')`, so
(i) every character of the URL is ASCII, (ii) percent-decoding the quoted
symbol recovers exactly its UTF-8 bytes — every non-ASCII code point of
the symbol is percent-encoded, losslessly — and (iii) a symbol consisting
only of the always-safe ASCII characters (letters, digits, `-`, `.`, `_`,
`~`) yields a URL containing no `%` escape; ASCII characters outside that
set (space, `+`, `/`, ...) are, however, also percent-encoded.
-/
theorem buildUrl_percent_encoding (s : String) (d : YMD) :
    (∀ c ∈ (buildUrl s d).data, c.toNat < 128) ∧
      percentDecode (pyQuote s).data = some (utf8Bytes s) ∧
      ((∀ c ∈ s.data, alwaysSafeByte c.toNat = true) →
        '%' ∉ (buildUrl s d).data) := by
  refine ⟨?_, percentDecode_pyQuote s, ?_⟩
  · intro c hc
    unfold buildUrl at hc
    simp only [String.data_append, List.append_assoc, List.mem_append] at hc
    rcases hc with hc | hc | hc | hc | hc | hc | hc
    · revert c
      decide
    · exact pyQuote_ascii s c hc
    · revert c
      decide
    · exact pyQuote_ascii s c hc
    · revert c
      decide
    · exact (formatDate_chars d c hc).1
    · revert c
      decide
  · intro hs hc
    unfold buildUrl at hc
    simp only [String.data_append, List.append_assoc, List.mem_append] at hc
    rcases hc with hc | hc | hc | hc | hc | hc | hc
    · revert hc
      decide
    · exact pyQuote_no_percent s hs '%' hc rfl
    · revert hc
      decide
    · exact pyQuote_no_percent s hs '%' hc rfl
    · revert hc
      decide
    · exact (formatDate_chars d '%' hc).2 rfl
    · revert hc
      decide

/-- Witness for C7's amended theorem: the always-safe ASCII symbol
`BTCUSDT` decodes back to its UTF-8 bytes and yields a URL without `%`. -/
theorem buildUrl_percent_encoding_witness :
    percentDecode (pyQuote "BTCUSDT").data = some (utf8Bytes "BTCUSDT") ∧
      '%' ∉ (buildUrl "BTCUSDT" ⟨2024, 1, 15⟩).data := by
  have h := buildUrl_percent_encoding "BTCUSDT" ⟨2024, 1, 15⟩
  exact ⟨h.2.1, h.2.2 (by decide)⟩

/--
Counterexample to C7 as stated: the symbol `"A B"` consists only of ASCII
characters, yet its probe URL contains a `%` escape (`A%20B`), because
`quote(symbol, safe='')` percent-encodes every byte outside the always-safe
set — not only non-ASCII bytes.
-/
theorem buildUrl_ascii_symbol_with_escape :
    (∀ c ∈ "A B".data, c.toNat < 128) ∧
      '%' ∈ (buildUrl "A B" ⟨2024, 1, 15⟩).data := by
  constructor
  · decide
  · decide

/-! ## Claim theorems about the batch prober -/

/-- The successful result a symbol's probe contributes, if any. -/
def probeOk (probe : String → Except String ProbeResult) (s : String) :
    Option ProbeResult :=
  match probe s with
  | .ok r => some r
  | .error _ => none

/-- The `(symbol, error message)` entry a symbol's probe contributes to the
failure list, if any. -/
def probeErr (probe : String → Except String ProbeResult) (s : String) :
    Option (String × String) :=
  match probe s with
  | .ok _ => none
  | .error e => some (s, e)

theorem probe_all_symbols_foldl (probe : String → Except String ProbeResult)
    (symbols : List String) :
    ∀ acc : List ProbeResult × List (String × String),
      symbols.foldl
        (fun (acc : List ProbeResult × List (String × String)) s =>
          match probe s with
          | .ok r => (acc.1 ++ [r], acc.2)
          | .error e => (acc.1, acc.2 ++ [(s, e)]))
        acc =
      (acc.1 ++ symbols.filterMap (probeOk probe),
        acc.2 ++ symbols.filterMap (probeErr probe)) := by
  induction symbols with
  | nil => intro acc; simp
  | cons s ss ih =>
    intro acc
    simp only [List.foldl_cons]
    cases hp : probe s with
    | ok r =>
      rw [ih]
      have hok : probeOk probe s = some r := by simp [probeOk, hp]
      have herr : probeErr probe s = none := by simp [probeErr, hp]
      rw [List.filterMap_cons, List.filterMap_cons, hok, herr]
      simp
    | error e =>
      rw [ih]
      have hok : probeOk probe s = none := by simp [probeOk, hp]
      have herr : probeErr probe s = some (s, e) := by simp [probeErr, hp]
      rw [List.filterMap_cons, List.filterMap_cons, hok, herr]
      simp

theorem length_filterMap_probeOk (probe : String → Except String ProbeResult)
    (symbols : List String) (h : ∀ s ∈ symbols, probeErr probe s = none) :
    (symbols.filterMap (probeOk probe)).length = symbols.length := by
  induction symbols with
  | nil => rfl
  | cons s ss ih =>
    have hs := h s (List.mem_cons_self s ss)
    unfold probeErr at hs
    rw [List.filterMap_cons]
    cases hp : probe s with
    | ok r =>
      have hok : probeOk probe s = some r := by simp [probeOk, hp]
      rw [hok]
      simp only [List.length_cons]
      rw [ih fun x hx => h x (List.mem_cons_of_mem s hx)]
    | error e => rw [hp] at hs; cases hs

/--
C3: `probe_all_symbols` attempts every symbol and never aborts early on an
individual probe failure.  If no symbol's probe raised, it returns exactly
one result per symbol; if at least one raised, the whole call raises one
aggregated error whose failure list is exactly the `(symbol, message)`
pair of every failing symbol — in particular it contains every failing
symbol — whose message is the formatted enumeration of that list, and no
partial result list is returned.
-/
theorem probe_all_symbols_gather (probe : String → Except String ProbeResult)
    (date : YMD) (symbols : List String) :
    (symbols.filterMap (probeErr probe) = [] →
      probe_all_symbols probe date symbols =
          .ok (symbols.filterMap (probeOk probe)) ∧
        (symbols.filterMap (probeOk probe)).length = symbols.length) ∧
      (symbols.filterMap (probeErr probe) ≠ [] →
        probe_all_symbols probe date symbols =
            .error { failed := symbols.filterMap (probeErr probe),
                     message := batchFailMsg date symbols.length
                       (symbols.filterMap (probeErr probe)) } ∧
          ∀ s e, s ∈ symbols → probe s = .error e →
            (s, e) ∈ symbols.filterMap (probeErr probe)) := by
  have hfold := probe_all_symbols_foldl probe symbols ([], [])
  constructor
  · intro hnil
    have hok : probe_all_symbols probe date symbols =
        .ok (symbols.filterMap (probeOk probe)) := by
      unfold probe_all_symbols
      rw [hfold]
      simp [hnil]
    refine ⟨hok, length_filterMap_probeOk probe symbols ?_⟩
    intro s hs
    cases he : probeErr probe s with
    | none => rfl
    | some p =>
      exfalso
      have : p ∈ symbols.filterMap (probeErr probe) :=
        List.mem_filterMap.mpr ⟨s, hs, he⟩
      rw [hnil] at this
      cases this
  · intro hne
    constructor
    · unfold probe_all_symbols
      rw [hfold]
      have hempty : (symbols.filterMap (probeErr probe)).isEmpty = false := by
        cases hfm : symbols.filterMap (probeErr probe) with
        | nil => exact absurd hfm hne
        | cons p ps => rfl
      simp only [List.nil_append, hempty, Bool.false_eq_true, if_false]
    · intro s e hs hp
      exact List.mem_filterMap.mpr ⟨s, hs, by simp [probeErr, hp]⟩

/-- The concrete probe of the C3 witness: symbol `BAD7` raises, every
other symbol probes fine. -/
def probeC3 : String → Except String ProbeResult := fun s =>
  if s == "BAD7" then .error "HTTP 500"
  else .ok { symbol := s, date := ⟨2024, 1, 15⟩, available := true,
             file_size_bytes := some 1, last_modified := none, url := "u",
             status_code := 200, probe_timestamp := 0 }

/-- Witness for C3: with ten symbols of which `BAD7` raises, the batch
call raises the aggregated error, and that error names `BAD7` with its
message. -/
theorem probe_all_symbols_gather_witness :
    probe_all_symbols probeC3 ⟨2024, 1, 15⟩
        ["S1", "S2", "S3", "S4", "S5", "S6", "BAD7", "S8", "S9", "S10"] =
        .error { failed := ["S1", "S2", "S3", "S4", "S5", "S6", "BAD7", "S8", "S9",
                   "S10"].filterMap (probeErr probeC3),
                 message := batchFailMsg ⟨2024, 1, 15⟩ 10
                   (["S1", "S2", "S3", "S4", "S5", "S6", "BAD7", "S8", "S9",
                     "S10"].filterMap (probeErr probeC3)) } ∧
      ("BAD7", "HTTP 500") ∈
        ["S1", "S2", "S3", "S4", "S5", "S6", "BAD7", "S8", "S9",
          "S10"].filterMap (probeErr probeC3) := by
  have h := (probe_all_symbols_gather probeC3 ⟨2024, 1, 15⟩
    ["S1", "S2", "S3", "S4", "S5", "S6", "BAD7", "S8", "S9", "S10"]).2 (by decide)
  exact ⟨h.1, h.2 "BAD7" "HTTP 500" (by decide) rfl⟩

/-! ## Claim theorems about the checkpointed backfill -/

/--
C8: starting a backfill with resume requested while a checkpoint recording
last-completed date `c` exists makes the orchestrator begin at `c + 1`:
the computed start date is `c + 1`, the first probed date is `c + 1`
(when the range is non-empty), date `c` itself is never probed, and no
probed date precedes `c + 1` — in particular the original range start is
not probed when it lies at or before `c`.
-/
theorem run_backfill_resume_start (startArg : Option Nat) (checkpoint : Option Nat)
    (defaultStart endDate c : Nat) (hck : checkpoint = some c) :
    computeStartDate startArg true checkpoint defaultStart = c + 1 ∧
      (c + 1 ≤ endDate →
        (backfillDates (computeStartDate startArg true checkpoint defaultStart)
          endDate).head? = some (c + 1)) ∧
      c ∉ backfillDates (computeStartDate startArg true checkpoint defaultStart) endDate ∧
      ∀ d ∈ backfillDates (computeStartDate startArg true checkpoint defaultStart) endDate,
        c + 1 ≤ d := by
  subst hck
  have h1 : computeStartDate startArg true (some c) defaultStart = c + 1 := rfl
  rw [h1]
  have hrange : backfillDates (c + 1) endDate = List.range' (c + 1) (endDate - c) := by
    unfold backfillDates
    congr 1
    omega
  refine ⟨rfl, ?_, ?_, ?_⟩
  · intro hle
    rw [hrange]
    have hn : endDate - c = (endDate - c - 1) + 1 := by omega
    rw [hn]
    rfl
  · rw [hrange]
    intro hmem
    have := List.mem_range'_1.mp hmem
    omega
  · intro d hd
    rw [hrange] at hd
    have := List.mem_range'_1.mp hd
    omega

/-- Witness for C8: resuming with checkpoint 3 over a range ending at 5
starts at 4 and never re-probes 3. -/
theorem run_backfill_resume_start_witness :
    computeStartDate (some 100) true (some 3) 100 = 4 ∧
      (backfillDates (computeStartDate (some 100) true (some 3) 100) 5).head? = some 4 ∧
      3 ∉ backfillDates (computeStartDate (some 100) true (some 3) 100) 5 := by
  have h := run_backfill_resume_start (some 100) (some 3) 100 5 3 rfl
  exact ⟨h.1, h.2.1 (by omega), h.2.2.1⟩

theorem probeLoop_ok (probe : Nat → Except String (List RecordDict))
    (results : Nat → List RecordDict) :
    ∀ ds : List Nat, (∀ d ∈ ds, probe d = .ok (results d)) →
      probeLoop probe ds =
        (ds.flatMap (fun d => [.probeDate d, .saveCheckpoint d]),
          .ok (ds.flatMap results)) := by
  intro ds
  induction ds with
  | nil => intro _; rfl
  | cons d ds ih =>
    intro h
    unfold probeLoop
    rw [h d (List.mem_cons_self d ds), ih fun x hx => h x (List.mem_cons_of_mem d hx)]
    simp [List.flatMap_cons, Except.map]

/--
C2 (amended): on a successful backfill run over `[start, e]`, the side
effects occur in exactly this order: for each date in ascending order, the
date's batch probe followed immediately by the persisting of that date as
the checkpoint, before the next date's probe begins; then — only after the
final date — a single `insert_batch` of all accumulated results, and the
checkpoint clear.  Probe results are therefore NOT committed to the store
when the checkpoint that covers them is written; they are committed only
at the end of the whole range.
-/
theorem run_backfill_checkpoint_order (probe : Nat → Except String (List RecordDict))
    (start e : Nat) (results : Nat → List RecordDict)
    (h : ∀ d ∈ backfillDates start e, probe d = .ok (results d)) :
    run_backfill_events probe start e =
      ((backfillDates start e).flatMap (fun d => [.probeDate d, .saveCheckpoint d]) ++
        [.insertRecords ((backfillDates start e).flatMap results), .clearCheckpoint],
        .ok ()) := by
  unfold run_backfill_events
  rw [probeLoop_ok probe results (backfillDates start e) h]

/-- The record the C2 probe returns for a date. -/
def recC2 (d : Nat) : RecordDict :=
  { date := some d, symbol := some "BTCUSDT", available := some true,
    url := some "u", status_code := some 200, probe_timestamp := some 0 }

/-- The concrete always-successful probe of the C2 theorems. -/
def probeC2 : Nat → Except String (List RecordDict) := fun d => .ok [recC2 d]

/-- Witness for C2's amended theorem on the concrete two-date run. -/
theorem run_backfill_checkpoint_order_witness :
    run_backfill_events probeC2 0 1 =
      ((backfillDates 0 1).flatMap (fun d => [.probeDate d, .saveCheckpoint d]) ++
        [.insertRecords ((backfillDates 0 1).flatMap (fun d => [recC2 d])),
          .clearCheckpoint],
        .ok ()) :=
  run_backfill_checkpoint_order probeC2 0 1 (fun d => [recC2 d])
    (fun d hd => by
      rcases (by simpa [backfillDates, List.range'] using hd : d = 0 ∨ d = 1) with rfl | rfl <;> rfl)

/--
Counterexample to C2 as stated: in a successful backfill over dates 0..1,
at the point right after the first checkpoint write (trace prefix of
length 2) the persisted checkpoint records date 0, yet date 0's probe
results are not committed to the store — the single `insert_batch` only
happens after the final date — so a crash at that point loses date 0's
completed work while the checkpoint marks it done.
-/
theorem run_backfill_checkpoint_before_commit :
    checkpointAfter (((run_backfill_events probeC2 0 1).1).take 2) = some 0 ∧
      0 ∉ committedDates (((run_backfill_events probeC2 0 1).1).take 2) ∧
      (run_backfill_events probeC2 0 1).2 = .ok () := by
  refine ⟨rfl, ?_, rfl⟩
  decide

end BFA
